import Mathlib

/-!
# Verification of the llm-news-service evidence pipeline

Shallow embedding of the core pipeline of the `llm-news-service` repository:
entity resolution (`core/entity_resolver.py`, `core/database.py`), article
ingestion and the two-phase triage/analysis state machine
(`core/article_processor.py`), deterministic tagging (`core/article_indexer.py`)
and the ML feature flattener (`core/ml_feature_generator.py`).

Conventions of the embedding:
* Python strings are Lean `String`s; slicing and `str.find` work on
  `List Char` (Python indexes code points, as `String.toList` does).
* `hashlib.sha256(...).hexdigest()` is modelled as an injective function on
  strings (the identity); the pipeline only ever compares fingerprints for
  equality, so any injective model is faithful up to hash collisions.
* Timestamps (`NOW()`, `scraped_at`, `expires_at`) are `Nat` seconds;
  `INTERVAL '7 days'` is the constant `retentionSeconds`.
* SQL tables are Lean lists of records (or key-indexed functions where the
  table carries a uniqueness constraint that `ON CONFLICT` targets).
* Floating point numerics of the feature flattener are modelled over `ℚ`.
* A `psycopg2` transaction scope (`get_cursor`) commits on normal exit and
  rolls back when the body raises; this is modelled explicitly where a claim
  depends on it.
-/

namespace NewsService

/-! ### String utilities -/

/-- Whether the pattern is an initial segment of the text (both as
character lists). -/
def leadsList : List Char → List Char → Bool
  | [], _ => true
  | _ :: _, [] => false
  | p :: ps, c :: cs => p = c && leadsList ps cs

/-- First index at which the pattern occurs in the text: Python `str.find`,
with `none` standing for `-1`. -/
def subFind (pat : List Char) : List Char → Option Nat
  | [] => if leadsList pat [] then some 0 else none
  | c :: t => if leadsList pat (c :: t) then some 0 else (subFind pat t).map (· + 1)

/-- Python `needle in haystack` (substring containment). -/
def strContainsSub (s pat : String) : Bool :=
  (subFind pat.toList s.toList).isSome

/-- Python `str.lower()` (character-wise; the catalog is ASCII). -/
def lowerStr (s : String) : String :=
  String.mk (s.toList.map Char.toLower)

/-- Python `str.strip()`: remove leading and trailing whitespace. -/
def stripStr (s : String) : String :=
  String.mk (((s.toList.dropWhile Char.isWhitespace).reverse.dropWhile
    Char.isWhitespace).reverse)

/-- One row-extension step of the longest-common-subsequence table:
`c` is the current character of the first string, the first list the
remaining characters of the second string, the second list the remaining
entries of the previous table row, and `cur` the entry just computed. -/
def lcsNext (c : Char) : List Char → List Nat → Nat → List Nat
  | b :: bs, p :: ps, cur =>
    let right := match ps with | [] => 0 | x :: _ => x
    let v := if c = b then p + 1 else max cur right
    v :: lcsNext c bs ps v
  | _ :: _, [], _ => []
  | [], _, _ => []

/-- Length of the longest common subsequence of two character lists,
computed row by row. -/
def lcsLen (a b : List Char) : Nat :=
  (a.foldl (fun prev c => 0 :: lcsNext c b prev 0)
    (List.replicate (b.length + 1) 0)).getLastD 0

/-- `Levenshtein.ratio` from the python-Levenshtein package: the library
computes `(|a|+|b| - d) / (|a|+|b|)` where `d` is the edit distance with
substitution weight 2, and that distance equals `|a|+|b| - 2*LCS(a,b)`,
so the ratio is `2*LCS(a,b) / (|a|+|b|)` (and `1` on two empty strings). -/
def levRatio (a b : String) : ℚ :=
  if a.length + b.length = 0 then 1
  else (2 * lcsLen a.toList b.toList : ℚ) / (a.length + b.length : ℚ)

/-! ### Identity catalog and `search_entities` (`core/database.py`) -/

/-- A row of the `entities` table (the fields the resolver reads). -/
structure Entity where
  id : Nat
  domain : String
  entityType : String
  canonicalName : String
deriving Repr, DecidableEq

/-- A row of the `entity_aliases` table. -/
structure EntityAlias where
  entityId : Nat
  aliasName : String
deriving Repr, DecidableEq

/-- The read-only identity catalog: the `entities` and `entity_aliases`
tables. -/
structure Catalog where
  entities : List Entity
  aliases : List EntityAlias
deriving Repr

/-- A result row of `search_entities`: the entity columns plus the
`match_type` discriminator column added by each branch of the `UNION`. -/
structure SearchRow where
  entity : Entity
  matchType : String
deriving Repr, DecidableEq, BEq

/-- `search_entities(query, domain, limit)`: the first `UNION` branch selects
entities whose lowercased canonical name contains the lowercased query
(`LIKE '%q%'`), the second selects entities joined through an alias whose
lowercased alias contains the query; `UNION` removes duplicate rows and
`LIMIT` truncates.  Row order of a `UNION` is unspecified in SQL; the model
fixes the deterministic order canonical-branch-then-alias-branch. -/
def searchEntities (cat : Catalog) (query : String) (domain : Option String)
    (limit : Nat) : List SearchRow :=
  let domOk : Entity → Bool := fun e =>
    match domain with
    | none => true
    | some d => e.domain = d
  let canonRows := (cat.entities.filter (fun e =>
      strContainsSub (lowerStr e.canonicalName) (lowerStr query) && domOk e)).map
    (fun e => { entity := e, matchType := "canonical" })
  let aliasRows := cat.aliases.filterMap (fun a =>
    match cat.entities.find? (fun e => e.id = a.entityId) with
    | none => none
    | some e =>
      if strContainsSub (lowerStr a.aliasName) (lowerStr query) && domOk e then
        some { entity := e, matchType := "alias" }
      else none)
  ((canonRows ++ aliasRows).eraseDups).take limit

/-! ### `resolve_entity` (`core/entity_resolver.py`) -/

/-- One iteration of the fuzzy-match loop of `resolve_entity`: keep the
accumulated `(best_score, best_match)` unless this candidate's ratio both
beats the best score so far and reaches the 0.8 threshold. -/
def bestFuzzyStep (name : String) (acc : ℚ × Option SearchRow)
    (r : SearchRow) : ℚ × Option SearchRow :=
  let score := levRatio (lowerStr name) (lowerStr r.entity.canonicalName)
  if acc.1 < score ∧ (4 : ℚ) / 5 ≤ score then (score, some r) else acc

/-- The fuzzy-match loop of `resolve_entity`, from
`best_score, best_match = 0.0, None`. -/
def bestFuzzy (name : String) (results : List SearchRow) :
    ℚ × Option SearchRow :=
  results.foldl (bestFuzzyStep name) ((0 : ℚ), (none : Option SearchRow))

/-- `resolve_entity(name, domain)`.  `if not name` only short-circuits the
empty string (a whitespace-only Python string is truthy); the search query is
the stripped name; then, in order: first exact case-insensitive canonical
match, first row produced by the alias branch of the search, best fuzzy
score `> best_score` so far and `>= 0.8`. -/
def resolveEntity (cat : Catalog) (name : String) (domain : Option String) :
    Option SearchRow :=
  if name = "" then none
  else
    let results := searchEntities cat (stripStr name) domain 5
    if results.isEmpty then none
    else
      match results.find? (fun r => lowerStr r.entity.canonicalName = lowerStr name) with
      | some r => some r
      | none =>
        match results.find? (fun r => r.matchType = "alias") with
        | some r => some r
        | none => (bestFuzzy name results).2

/-! ### Article ingestion (`core/article_processor.py`, `ingest_article`) -/

/-- `hashlib.sha256(s.encode()).hexdigest()`, modelled as an injective
function on strings: the pipeline only ever compares digests for equality,
so any injective model is faithful up to hash collisions. -/
def sha256Hex (s : String) : String := s

/-- `INTERVAL '7 days'` in seconds: the fixed retention window. -/
def retentionSeconds : Nat := 7 * 24 * 60 * 60

/-- A row of the `articles` table (the columns the claims inspect). -/
structure ArticleRow where
  id : Nat
  urlHash : String
  contentHash : String
  url : String
  title : String
  body : String
  source : Option String
  publishedAt : Option String
  scrapedAt : Nat
  expiresAt : Nat
  triageStatus : String
  analysisStatus : String
  indexedAt : Option Nat
deriving Repr, DecidableEq

/-- The `articles` table plus the sequence feeding its primary key. -/
structure ArticlesDb where
  rows : List ArticleRow
  nextId : Nat
deriving Repr, DecidableEq

/-- `SELECT id, content_hash FROM articles WHERE url_hash = %s AND
expires_at > NOW()`. -/
def findLive (db : ArticlesDb) (urlHash : String) (now : Nat) : Option ArticleRow :=
  db.rows.find? (fun a => a.urlHash = urlHash && now < a.expiresAt)

/-- The content-changed `UPDATE` applied to one row: replace body and
content hash, reset both statuses to pending, clear `indexed_at`, refresh
`scraped_at` and `expires_at`. -/
def contentUpdate (now : Nat) (body contentHash : String) (a : ArticleRow) :
    ArticleRow :=
  { a with
    body := body, contentHash := contentHash,
    triageStatus := "pending", analysisStatus := "pending",
    indexedAt := none, scrapedAt := now, expiresAt := now + retentionSeconds }

/-- The fresh row of the new-article `INSERT`; `expires_at` is
`NOW() + INTERVAL '7 days'`.  The statuses, `scraped_at` and `indexed_at`
are not in the column list and take the table defaults (§3 lifecycle:
created pending/pending with a null indexed timestamp). -/
def insertRow (db : ArticlesDb) (now : Nat) (urlHash contentHash url title body : String)
    (src publishedAt : Option String) : ArticleRow :=
  { id := db.nextId, urlHash := urlHash, contentHash := contentHash,
    url := url, title := title, body := body, source := src,
    publishedAt := publishedAt, scrapedAt := now,
    expiresAt := now + retentionSeconds,
    triageStatus := "pending", analysisStatus := "pending", indexedAt := none }

/-- `ingest_article(url, title, body, source, published_at)` as a transition
on the committed `articles` table: live duplicate ⇒ `None` and no change;
live with changed content ⇒ in-place update; otherwise insert.  The
interaction with the tagging call and the transaction boundary is modelled
separately by `ingestWithTagger`. -/
def ingestArticle (db : ArticlesDb) (now : Nat) (url title body : String)
    (src publishedAt : Option String) : ArticlesDb × Option ArticleRow :=
  let urlHash := sha256Hex url
  let contentHash := sha256Hex body
  match findLive db urlHash now with
  | some existing =>
    if existing.contentHash = contentHash then (db, none)
    else
      ({ db with rows := db.rows.map (fun a =>
          if a.id = existing.id then contentUpdate now body contentHash a else a) },
        some (contentUpdate now body contentHash existing))
  | none =>
    let row := insertRow db now urlHash contentHash url title body src publishedAt
    ({ rows := db.rows ++ [row], nextId := db.nextId + 1 }, some row)

/-- `ingest_article` together with its `index_article` calls and the
`get_cursor` transaction scope, which commits on normal exit of the `with`
block and rolls back when the body raises.  The tagger is abstracted as a
fallible action.  In the content-changed branch the source calls
`index_article` from inside the `with get_cursor()` block, before that scope
commits, so a raised tagging error rolls the update back; in the new-article
branch `index_article` runs after the block has exited and committed.
The result is the committed table plus either the returned record or the
uncaught exception. -/
def ingestWithTagger (db : ArticlesDb) (now : Nat) (url title body : String)
    (src publishedAt : Option String) (tagger : Except String Unit) :
    ArticlesDb × Except String (Option ArticleRow) :=
  let urlHash := sha256Hex url
  let contentHash := sha256Hex body
  match findLive db urlHash now with
  | some existing =>
    if existing.contentHash = contentHash then (db, Except.ok none)
    else
      let db' : ArticlesDb := { db with rows := db.rows.map (fun a =>
        if a.id = existing.id then contentUpdate now body contentHash a else a) }
      match tagger with
      | Except.ok _ =>
        (db', Except.ok (some (contentUpdate now body contentHash existing)))
      | Except.error e => (db, Except.error e)
  | none =>
    let row := insertRow db now urlHash contentHash url title body src publishedAt
    let db' : ArticlesDb := { rows := db.rows ++ [row], nextId := db.nextId + 1 }
    match tagger with
    | Except.ok _ => (db', Except.ok (some row))
    | Except.error e => (db', Except.error e)

/-! ### Phase-1 triage (`_detect_context`, `run_triage_batch`) -/

/-- The injury keyword list of `_detect_context`. -/
def injuryCtxKws : List String :=
  ["injur", "hamstring", "calf", "shoulder", "knee", "ruled out", "sidelined", "miss"]

/-- The return keyword list of `_detect_context`. -/
def returnCtxKws : List String :=
  ["return", "back from", "recovered", "cleared to play", "set to return"]

/-- The trade keyword list of `_detect_context`. -/
def tradeCtxKws : List String :=
  ["trade", "deal", "request", "move to", "join", "sign"]

/-- The selection keyword list of `_detect_context`. -/
def selectionCtxKws : List String :=
  ["select", "named", "omit", "drop", "debut", "axed", "in for", "out for"]

/-- The form keyword list of `_detect_context`. -/
def formCtxKws : List String :=
  ["form", "scores", "points", "averaging", "performance", "disposal"]

/-- `any(kw in window for kw in kws)`. -/
def anyKwIn (w : List Char) (kws : List String) : Bool :=
  kws.any (fun kw => (subFind kw.toList w).isSome)

/-- The text window `text_lower[max(0, idx-100) : idx+100]` around the
mention at `idx`. -/
def ctxWindow (t : List Char) (idx : Nat) : List Char :=
  (t.drop (idx - 100)).take (idx + 100 - (idx - 100))

/-- `_detect_context(text, player_name)`: locate the first occurrence of the
lowered player name in the lowered text, cut the window, and test the five
keyword groups in priority order; `"general"` when the name does not occur
or no group matches. -/
def detectContext (text playerName : String) : String :=
  let t := (lowerStr text).toList
  let p := (lowerStr playerName).toList
  match subFind p t with
  | none => "general"
  | some idx =>
    let w := ctxWindow t idx
    if anyKwIn w injuryCtxKws then "injury"
    else if anyKwIn w returnCtxKws then "return"
    else if anyKwIn w tradeCtxKws then "trade"
    else if anyKwIn w selectionCtxKws then "selection"
    else if anyKwIn w formCtxKws then "form"
    else "general"

/-- `needs_analysis = context in ('injury', 'trade', 'selection', 'return')`
from `_triage_article`. -/
def needsDeepAnalysis (ctx : String) : Bool :=
  ctx = "injury" || ctx = "trade" || ctx = "selection" || ctx = "return"

/-- `KEYWORD_MAP` of `core/article_indexer.py`: literal phrase to normalized
keyword tag value, in source order. -/
def keywordMap : List (String × String) := [
  ("injur", "injury"), ("hamstring", "injury"), ("calf", "injury"),
  ("shoulder", "injury"), ("knee", "injury"), ("ankle", "injury"),
  ("concuss", "injury"), ("ruled out", "injury"), ("sidelined", "injury"),
  ("miss", "injury"), ("setback", "injury"),
  ("return", "return"), ("back from", "return"), ("recovered", "return"),
  ("cleared to play", "return"), ("set to return", "return"),
  ("available", "return"),
  ("trade", "trade"), ("request", "trade"), ("move to", "trade"),
  ("join", "trade"), ("sign", "trade"), ("departure", "trade"),
  ("free agent", "trade"),
  ("select", "selection"), ("named", "selection"), ("omit", "selection"),
  ("drop", "selection"), ("debut", "selection"), ("axed", "selection"),
  ("in for", "selection"), ("out for", "selection"), ("recalled", "selection"),
  ("contract", "contract"), ("re-sign", "contract"), ("deal", "contract"),
  ("extension", "contract"), ("years", "contract"),
  ("form", "form"), ("scores", "form"), ("points", "form"),
  ("averaging", "form"), ("performance", "form"), ("disposal", "form"),
  ("best on ground", "form"), ("bog", "form")]

/-- The Tagger's phrase group for one normalized tag value. -/
def taggerGroup (g : String) : List String :=
  (keywordMap.filter (fun kv => kv.2 = g)).map (fun kv => kv.1)

/-- The context classifier as claim C5 words it: same window and priority
order as `_detect_context`, but with the keyword-phrase groups the Tagger's
`KEYWORD_MAP` defines.  Written from the claim, to be compared against
`detectContext`, which is written from the source. -/
def detectContextClaimC5 (text playerName : String) : String :=
  let t := (lowerStr text).toList
  let p := (lowerStr playerName).toList
  match subFind p t with
  | none => "general"
  | some idx =>
    let w := ctxWindow t idx
    if anyKwIn w (taggerGroup "injury") then "injury"
    else if anyKwIn w (taggerGroup "return") then "return"
    else if anyKwIn w (taggerGroup "trade") then "trade"
    else if anyKwIn w (taggerGroup "selection") then "selection"
    else if anyKwIn w (taggerGroup "form") then "form"
    else "general"

/-! ### The batch loops (`run_triage_batch`, `run_analysis_batch`) -/

/-- The shared body of both batch entry points after their pending pull:
`for item in items: process(item); processed += 1` and then
`return processed`.  `process` threads the persistent state and may raise;
neither source loop has a try/except around its body, so a raised exception
propagates out of the loop at once. -/
def processLoop {α σ ε : Type} (process : α → σ → Except ε σ) :
    List α → σ → Nat → Except ε (σ × Nat)
  | [], s, n => Except.ok (s, n)
  | x :: xs, s, n =>
    match process x s with
    | Except.ok s' => processLoop process xs s' (n + 1)
    | Except.error e => Except.error e

/-- `run_triage_batch` after the pending-article pull: the per-article loop,
returning the processed count or propagating the first exception. -/
def runTriageBatchLoop {α σ ε : Type} (triageArticle : α → σ → Except ε σ)
    (articles : List α) (s : σ) : Except ε (σ × Nat) :=
  processLoop triageArticle articles s 0

/-- `run_analysis_batch` after the pending-mention pull: the per-mention
loop, returning the processed count or propagating the first exception. -/
def runAnalysisBatchLoop {α σ ε : Type} (analyzeOne : α → σ → Except ε σ)
    (pending : List α) (s : σ) : Except ε (σ × Nat) :=
  processLoop analyzeOne pending s 0

/-! ### Phase-2 analysis (`_analyze_entity`) -/

/-- One item of the analysis pull: an `article_entities` row joined to its
article and (left-joined) entity. -/
structure MentionItem where
  id : Nat
  articleId : Nat
  entityId : Option Nat
  entityName : String
  canonicalName : Option String
  url : String
  title : String
  source : Option String
deriving Repr, DecidableEq

/-- The outcome of `claude.query_json`: either an error dict (transport
failure, timeout, or unparseable output) or the parsed payload fields
`_analyze_entity` reads. -/
inductive OracleResult where
  | err (msg : String)
  | ok (eventType : Option String) (confidence : Option ℚ)
deriving Repr, DecidableEq

/-- A stored `extraction_events` row (the columns the claims inspect; the
table is unique on `article_hash`). -/
structure ExtractionEvent where
  schemaType : String
  articleHash : String
  confidence : Option ℚ
  articleEntityId : Nat
deriving Repr, DecidableEq

/-- State touched by one `_analyze_entity` call: the `extraction_events`
table and the log of `_mark_analysis_complete` update statements (one entry
per issued `UPDATE article_entities SET analysis_completed = TRUE`). -/
structure AnalysisDb where
  events : List ExtractionEvent
  completed : List Nat
deriving Repr, DecidableEq

/-- `_mark_analysis_complete(article_entity_id)`. -/
def markAnalysisComplete (db : AnalysisDb) (mentionId : Nat) : AnalysisDb :=
  { db with completed := db.completed ++ [mentionId] }

/-- `INSERT ... ON CONFLICT (article_hash) DO NOTHING`. -/
def insertEventKeepExisting (events : List ExtractionEvent)
    (ev : ExtractionEvent) : List ExtractionEvent :=
  if events.any (fun e => e.articleHash = ev.articleHash) then events
  else events ++ [ev]

/-- The idempotency key of the extraction event:
`sha256(f"{item['url']}:{player_name}")`. -/
def eventFingerprint (url playerName : String) : String :=
  sha256Hex (url ++ ":" ++ playerName)

/-- `player_name = item['canonical_name'] or item['entity_name']` (the
left-joined canonical name when present and non-empty, else the
triage-time entity name). -/
def resolvedSubjectName (item : MentionItem) : String :=
  match item.canonicalName with
  | none => item.entityName
  | some s => if s = "" then item.entityName else s

/-- `result.get('event_type') or 'other'`: Python `or` makes `None` and the
empty string both fall back to `'other'`. -/
def normalizedEventType (et : Option String) : String :=
  match et with
  | none => "other"
  | some s => if s = "" then "other" else s

/-- `_analyze_entity(item)` given the oracle's reply.  An error reply or a
confidence below 0.3 (`result.get('confidence') or 0`) marks the mention
completed without writing an event; otherwise the event is upserted
(duplicate fingerprint ⇒ no-op) and the mention is marked completed. -/
def analyzeEntity (db : AnalysisDb) (item : MentionItem) (result : OracleResult) :
    AnalysisDb :=
  let playerName := resolvedSubjectName item
  match result with
  | OracleResult.err _ => markAnalysisComplete db item.id
  | OracleResult.ok eventType confidence =>
    let eventTypeV := normalizedEventType eventType
    let confidenceV := confidence.getD 0
    if confidenceV < (3 : ℚ) / 10 then markAnalysisComplete db item.id
    else
      let ev : ExtractionEvent := {
        schemaType := eventTypeV,
        articleHash := eventFingerprint item.url playerName,
        confidence := confidence,
        articleEntityId := item.id }
      markAnalysisComplete
        { db with events := insertEventKeepExisting db.events ev } item.id

/-! ### Deterministic tagging (`core/article_indexer.py`) -/

/-- One compiled entry of the indexer pattern cache:
`(pattern, entity id, tag value, entity type)`; the pattern is the
word-bounded, case-insensitive literal `patText` (for an alias entry
`patText` is the alias while `canonical` is the entity's canonical name). -/
structure PatternEntry where
  patText : String
  entityId : Nat
  canonical : String
  entityType : String
deriving Repr, DecidableEq

/-- `\w` of Python's `re` over the ASCII catalog names. -/
def isWordChar (c : Char) : Bool := c.isAlphanum || c = '_'

/-- Whether the word-bounded pattern `\b pat \b` matches the lowered text at
index `i` (for patterns whose edge characters are word characters, as the
catalog names are). -/
def wordMatchAt (t pat : List Char) (i : Nat) : Bool :=
  leadsList pat (t.drop i)
    && (i = 0 || !isWordChar (t.getD (i - 1) ' '))
    && (t.length ≤ i + pat.length || !isWordChar (t.getD (i + pat.length) ' '))

/-- Non-overlapping left-to-right occurrence scan: on a hit record the index
and skip the pattern length (as both `re.finditer` and the indexer's
`str.find`/`idx += len(keyword)` loop do), else advance one position.  The
fuel argument bounds the scan by the text length. -/
def scanOccs (hit : Nat → Bool) (step : Nat) : Nat → Nat → List Nat
  | 0, _ => []
  | fuel + 1, i =>
    if hit i then i :: scanOccs hit step fuel (i + max 1 step)
    else scanOccs hit step fuel (i + 1)

/-- All `finditer` match positions of one pattern entry over the lowered
text. -/
def patternOccs (tLow : List Char) (pat : String) : List Nat :=
  let p := (lowerStr pat).toList
  scanOccs (fun i => wordMatchAt tLow p i) p.length (tLow.length + 1) 0

/-- All occurrence positions of one keyword phrase (plain substring
containment, no word boundary). -/
def keywordOccs (tLow : List Char) (kw : String) : List Nat :=
  let p := kw.toList
  scanOccs (fun i => leadsList p (tLow.drop i)) p.length (tLow.length + 1) 0

/-- Update-or-append on an insertion-ordered association list (a Python
dict / defaultdict). -/
def updAssoc {κ ν : Type} [DecidableEq κ] (m : List (κ × ν)) (k : κ)
    (dflt : ν) (f : ν → ν) : List (κ × ν) :=
  match m with
  | [] => [(k, f dflt)]
  | (k', v) :: rest =>
    if k' = k then (k', f v) :: rest else (k', v) :: updAssoc rest k dflt f

/-- The `defaultdict` accumulator value of the entity-match loop. -/
structure EntityAcc where
  matchCount : Nat
  isHeadline : Bool
  matchText : Option String
deriving Repr, DecidableEq

/-- The entity-match accumulation of `index_article`: per pattern, every
match bumps the count of the `(entity_id, entity_type, tag_value)` key,
sets the headline flag when the match starts before the title/body
boundary, and records the first matched excerpt (truncated to 200). -/
def entityMatches (text : String) (titleLen : Nat)
    (patterns : List PatternEntry) :
    List ((Nat × String × String) × EntityAcc) :=
  let t := text.toList
  let tLow := (lowerStr text).toList
  patterns.foldl (fun m pe =>
    (patternOccs tLow pe.patText).foldl (fun m i =>
      updAssoc m (pe.entityId, pe.entityType, pe.canonical)
        { matchCount := 0, isHeadline := false, matchText := none }
        (fun acc =>
          { matchCount := acc.matchCount + 1,
            isHeadline := acc.isHeadline || decide (i < titleLen),
            matchText := match acc.matchText with
              | some s => some s
              | none =>
                some (String.mk (((t.drop i).take pe.patText.length).take 200)) }))
      m) []

/-- The keyword-match accumulation of `index_article`: tag value to
(occurrence count, headline flag). -/
def keywordMatches (tLow : List Char) (titleLen : Nat) :
    List (String × (Nat × Bool)) :=
  keywordMap.foldl (fun m kv =>
    (keywordOccs tLow kv.1).foldl (fun m i =>
      updAssoc m kv.2 (0, false)
        (fun acc => (acc.1 + 1, acc.2 || decide (i < titleLen)))) m) []

/-- `KEYWORD_TO_DIMENSION` of `core/article_indexer.py`. -/
def keywordToDimension : List (String × String) := [
  ("injury", "injury_status"), ("return", "fitness_health"),
  ("selection", "selection_security"), ("trade", "selection_security"),
  ("contract", "role_change"), ("form", "form_trajectory")]

/-- A tag as `index_article` computes it, before persistence. -/
structure TagData where
  tagType : String
  tagValue : String
  entityId : Option Nat
  dimensionId : Option Nat
  matchText : Option String
  matchCount : Nat
  isHeadline : Bool
deriving Repr, DecidableEq

/-- The full tag list `index_article` computes for `(title, body)`:
entity tags in first-match order, then keyword tags in `KEYWORD_MAP`
order; the matched text is `f"{title}\n{body}"` and the headline boundary
is `len(title)`. -/
def computeTags (patterns : List PatternEntry) (dimensionIds : List (String × Nat))
    (title body : String) : List TagData :=
  let text := title ++ "\n" ++ body
  let titleLen := title.length
  let tLow := (lowerStr text).toList
  let eTags := (entityMatches text titleLen patterns).map (fun kv =>
    { tagType := kv.1.2.1, tagValue := kv.1.2.2, entityId := some kv.1.1,
      dimensionId := none, matchText := kv.2.matchText,
      matchCount := kv.2.matchCount, isHeadline := kv.2.isHeadline })
  let kTags := (keywordMatches tLow titleLen).map (fun kv =>
    let dimCode := (keywordToDimension.find? (fun cd => cd.1 = kv.1)).map (fun cd => cd.2)
    let dimId := match dimCode with
      | none => none
      | some code => (dimensionIds.find? (fun di => di.1 = code)).map (fun di => di.2)
    { tagType := "keyword", tagValue := kv.1, entityId := none,
      dimensionId := dimId, matchText := none,
      matchCount := kv.2.1, isHeadline := kv.2.2 })
  eTags ++ kTags

/-- A stored `article_tags` row. -/
structure TagRow where
  entityId : Option Nat
  dimensionId : Option Nat
  matchText : Option String
  matchCount : Nat
  isHeadline : Bool
deriving Repr, DecidableEq

/-- The `article_tags` table, as the finite map its uniqueness constraint
on `(article_id, tag_type, tag_value)` makes it. -/
def TagStore : Type := Nat × String × String → Option TagRow

/-- Effect of one upsert on the row stored under the tag's own key:
a fresh `INSERT` when absent, else the `DO UPDATE` branch, which sets
`match_count = EXCLUDED.match_count`, `is_headline = EXCLUDED.is_headline`
and `dimension_id = COALESCE(EXCLUDED.dimension_id, article_tags.dimension_id)`
and does not touch `entity_id` or `match_text`. -/
def upsertRow (old : Option TagRow) (tag : TagData) : Option TagRow :=
  match old with
  | none => some {
      entityId := tag.entityId, dimensionId := tag.dimensionId,
      matchText := tag.matchText, matchCount := tag.matchCount,
      isHeadline := tag.isHeadline }
  | some r => some { r with
      matchCount := tag.matchCount,
      isHeadline := tag.isHeadline,
      dimensionId := match tag.dimensionId with
        | some d => some d
        | none => r.dimensionId }

/-- `INSERT ... ON CONFLICT (article_id, tag_type, tag_value) DO UPDATE`. -/
def upsertTag (store : TagStore) (articleId : Nat) (tag : TagData) : TagStore :=
  fun k =>
    if k = (articleId, tag.tagType, tag.tagValue) then upsertRow (store k) tag
    else store k

/-- The upsert loop of `_save_tags`. -/
def saveTags (store : TagStore) (articleId : Nat) (tags : List TagData) : TagStore :=
  tags.foldl (fun s t => upsertTag s articleId t) store

/-- `index_article`'s effect on the tag table: compute the tags for the
article text against the current pattern/dimension caches and upsert each. -/
def indexArticleTags (patterns : List PatternEntry)
    (dimensionIds : List (String × Nat)) (store : TagStore) (articleId : Nat)
    (title body : String) : TagStore :=
  saveTags store articleId (computeTags patterns dimensionIds title body)

/-! ### `reindex_all` (`core/article_indexer.py`) -/

/-- An `articles` row as the reindex pull reads it. -/
structure IndexedArticle where
  id : Nat
  title : String
  body : String
  scrapedAt : Nat
  indexedAt : Option Nat
deriving Repr, DecidableEq

/-- Insert into a list kept sorted by descending key. -/
def insertDescBy {α : Type} (key : α → Nat) (x : α) : List α → List α
  | [] => [x]
  | y :: ys => if key y ≤ key x then x :: y :: ys else y :: insertDescBy key x ys

/-- Sort by descending key (a deterministic model of the SQL
`ORDER BY ... DESC`, whose tie order is unspecified). -/
def sortDescBy {α : Type} (key : α → Nat) : List α → List α
  | [] => []
  | x :: xs => insertDescBy key x (sortDescBy key xs)

/-- `SELECT id, title, body FROM articles WHERE indexed_at IS NULL ORDER BY
scraped_at DESC LIMIT batch_size` — the batch pull of `reindex_all`. -/
def pullUnindexed (rows : List IndexedArticle) (batchSize : Nat) :
    List IndexedArticle :=
  (sortDescBy (fun a => a.scrapedAt) (rows.filter (fun a => a.indexedAt = none))).take
    batchSize

/-- The `indexed_at` stamp at the end of `_save_tags`; its early
`if not tags: return stats` skips the stamp when no tag was computed. -/
def stampIndexed (rows : List IndexedArticle) (articleId now : Nat)
    (tags : List TagData) : List IndexedArticle :=
  if tags.isEmpty then rows
  else rows.map (fun a =>
    if a.id = articleId then { a with indexedAt := some now } else a)

/-- State threaded through the `reindex_all` loop. -/
structure ReindexState where
  articles : List IndexedArticle
  tagStore : TagStore
  processed : Nat

/-- Re-tagging of one pulled article inside the `reindex_all` loop. -/
def reindexOne (patterns : List PatternEntry) (dimensionIds : List (String × Nat))
    (now : Nat) (st : ReindexState) (a : IndexedArticle) : ReindexState :=
  let tags := computeTags patterns dimensionIds a.title a.body
  { articles := stampIndexed st.articles a.id now tags,
    tagStore := saveTags st.tagStore a.id tags,
    processed := st.processed + 1 }

/-- `reindex_all(batch_size)`: repeatedly pull a batch of un-indexed
articles and re-tag each; the loop exits when a pull comes back empty.
The source's `while True` has no iteration bound, so the model takes a fuel
argument covering a finite prefix of the execution. -/
def reindexAll (patterns : List PatternEntry) (dimensionIds : List (String × Nat))
    (now batchSize : Nat) : Nat → ReindexState → ReindexState
  | 0, st => st
  | fuel + 1, st =>
    let batch := pullUnindexed st.articles batchSize
    if batch.isEmpty then st
    else reindexAll patterns dimensionIds now batchSize fuel
      (batch.foldl (reindexOne patterns dimensionIds now) st)

/-! ### ML feature flattener (`core/ml_feature_generator.py`) -/

/-- The string-keyed entries of `SENTIMENT_MAP`. -/
def sentimentPairs : List (String × ℚ) :=
  [("positive", 3/4), ("neutral", 1/2), ("negative", 1/4), ("mixed", 1/2)]

/-- `SENTIMENT_MAP.get(x, 0.5)`; the dict also maps the `None` key to 0.5. -/
def sentimentVal (x : Option String) : ℚ :=
  match x with
  | none => 1/2
  | some s => (((sentimentPairs.find? (fun p => p.1 = s)).map (fun p => p.2)).getD (1/2))

/-- The string-keyed entries of `SIGNAL_MAP`. -/
def signalPairs : List (String × ℚ) :=
  [("strong", 1), ("moderate", 33/50), ("weak", 33/100), ("none", 0)]

/-- `SIGNAL_MAP.get(x, 0.0)`; the dict also maps the `None` key to 0.0. -/
def signalVal (x : Option String) : ℚ :=
  match x with
  | none => 0
  | some s => (((signalPairs.find? (fun p => p.1 = s)).map (fun p => p.2)).getD 0)

/-- `DIMENSION_PREFIX_MAP`: dimension code to feature-column stem. -/
def dimensionCodePairs : List (String × String) := [
  ("injury_status", "injury"), ("fitness_health", "fitness"),
  ("selection_security", "selection"), ("role_change", "role"),
  ("form_trajectory", "form"), ("captaincy_potential", "captaincy"),
  ("load_management", "load"), ("coaching_sentiment", "coaching")]

/-- `DIMENSION_CODES = list(DIMENSION_PREFIX_MAP.keys())`. -/
def dimensionCodes : List String := dimensionCodePairs.map (fun p => p.1)

/-- A `weekly_snapshots` row joined to its dimension code, as the flattener
reads it. -/
structure SnapshotRow where
  code : String
  sentiment : Option String
  signalStrength : Option String
  articleCount : Option Nat
deriving Repr, DecidableEq

/-- The per-dimension `(mentioned, sentiment, signal)` feature triple;
`none` is the initialized default for the numeric fields. -/
structure DimFeat where
  mentioned : Bool
  sentiment : Option ℚ
  signal : Option ℚ
deriving Repr, DecidableEq

/-- The `weekly_verdicts` columns the flattener reads (the five sub-scores
live in the `verdict_features` JSON bag and default to 0.5 when absent). -/
structure VerdictRow where
  captainRating : Option ℚ
  riskLevel : Option String
  tradeSignal : Option String
  injuryRisk : Option ℚ
  formScore : Option ℚ
  selectionCertainty : Option ℚ
  upsidePotential : Option ℚ
  floorSafety : Option ℚ
  confidence : Option ℚ
deriving Repr, DecidableEq

/-- The accumulator of the snapshot loop in `_generate_entity_features`. -/
structure FlattenAcc where
  dims : String → DimFeat
  totalArticles : Nat
  sentimentSum : ℚ
  signalSum : ℚ
  dimCount : Nat

/-- The column stem `DIMENSION_PREFIX_MAP.get(code)` of a snapshot's
dimension code. -/
def dimOf (s : SnapshotRow) : Option String :=
  (dimensionCodePairs.find? (fun p => p.1 = s.code)).map (fun p => p.2)

/-- `if snap["sentiment"]`: Python truthiness, so only a non-null,
non-empty sentiment counts toward the sentiment mean. -/
def sentRecorded (s : SnapshotRow) : Bool :=
  match s.sentiment with
  | none => false
  | some t => t ≠ ""

/-- The `(mentioned, sentiment, signal)` triple the loop writes for one
snapshot with a known dimension code. -/
def snapTriple (s : SnapshotRow) : DimFeat :=
  { mentioned := decide (0 < s.articleCount.getD 0),
    sentiment := some (sentimentVal s.sentiment),
    signal := some (signalVal s.signalStrength) }

/-- One iteration of the snapshot loop: unknown dimension codes are skipped
entirely; a known code sets the three per-dimension features and feeds the
aggregate sums. -/
def snapStep (acc : FlattenAcc) (snap : SnapshotRow) : FlattenAcc :=
  match dimOf snap with
  | none => acc
  | some stem =>
    let articleCount := snap.articleCount.getD 0
    let dims' := fun k => if k = stem then snapTriple snap else acc.dims k
    { dims := dims',
      totalArticles := acc.totalArticles + articleCount,
      sentimentSum := acc.sentimentSum +
        (if sentRecorded snap then sentimentVal snap.sentiment else 0),
      signalSum := acc.signalSum + signalVal snap.signalStrength,
      dimCount := acc.dimCount + (if sentRecorded snap then 1 else 0) }

/-- The snapshots with a known dimension code: the ones the loop does not
skip. -/
def knownSnaps (snaps : List SnapshotRow) : List SnapshotRow :=
  snaps.filter (fun s => (dimOf s).isSome)

/-- The snapshots that feed the sentiment mean: known code and a recorded
(truthy) sentiment. -/
def recordedSnaps (snaps : List SnapshotRow) : List SnapshotRow :=
  snaps.filter (fun s => (dimOf s).isSome && sentRecorded s)

/-- The flattened feature row keyed by `(entity, round)`. -/
structure FeatureRow where
  dims : String → DimFeat
  captainRating : Option ℚ
  riskLevel : Option String
  tradeSignal : Option String
  injuryRiskScore : ℚ
  formScore : ℚ
  selectionCertainty : ℚ
  upsidePotential : ℚ
  floorSafety : ℚ
  totalArticleCount : Nat
  overallSentiment : ℚ
  overallSignalStrength : ℚ
  confidence : ℚ

/-- `_generate_entity_features` for one entity and round, given its snapshot
rows and verdict: defaults, the snapshot loop, the verdict merge, and the
two aggregates (sentiment mean over recorded dimensions, signal sum over
the fixed total `len(DIMENSION_CODES)`). -/
def generateEntityFeatures (snaps : List SnapshotRow) (verdict : VerdictRow) :
    FeatureRow :=
  let init : FlattenAcc := {
    dims := fun _ => { mentioned := false, sentiment := none, signal := none },
    totalArticles := 0, sentimentSum := 0, signalSum := 0, dimCount := 0 }
  let acc := snaps.foldl snapStep init
  { dims := acc.dims,
    captainRating := verdict.captainRating,
    riskLevel := verdict.riskLevel,
    tradeSignal := verdict.tradeSignal,
    injuryRiskScore := (verdict.injuryRisk).getD (1/2),
    formScore := (verdict.formScore).getD (1/2),
    selectionCertainty := (verdict.selectionCertainty).getD (1/2),
    upsidePotential := (verdict.upsidePotential).getD (1/2),
    floorSafety := (verdict.floorSafety).getD (1/2),
    totalArticleCount := acc.totalArticles,
    overallSentiment :=
      if 0 < acc.dimCount then acc.sentimentSum / (acc.dimCount : ℚ) else 1/2,
    overallSignalStrength :=
      if dimensionCodes.length ≠ 0 then acc.signalSum / (dimensionCodes.length : ℚ)
      else 0,
    confidence := match verdict.confidence with
      | none => 1/2
      | some c => if c = 0 then 1/2 else c }

/-! ### Proof-support definitions and concrete fixtures -/

/-- The `COALESCE` chain of `dimension_id` along a sequence of upserts. -/
def dimChain (d : Option Nat) (ts : List TagData) : Option Nat :=
  ts.foldl (fun d t =>
    match t.dimensionId with
    | some x => some x
    | none => d) d

/-- The last `dimension_id` choice a tag sequence forces, ignoring the
initial value. -/
def lastDim (ts : List TagData) : Option Nat := dimChain none ts

/-- The value the last element of a sequence writes for a field that each
step overwrites unconditionally (a left fold that keeps only the newest
value). -/
def lastBy {α β : Type} (f : α → β) : β → List α → β
  | b, [] => b
  | _, t :: ts => lastBy f (f t) ts

/-- A small identity catalog: the entity Max Gawn with the alias Gawn. -/
def gawnCatalog : Catalog :=
  { entities := [{
      id := 1, domain := "afl", entityType := "player",
      canonicalName := "Max Gawn" }],
    aliases := [{ entityId := 1, aliasName := "Gawn" }] }

/-- The same catalog without the alias record. -/
def gawnCatalogNoAlias : Catalog :=
  { entities := [{
      id := 1, domain := "afl", entityType := "player",
      canonicalName := "Max Gawn" }],
    aliases := [] }

/-- The canonical-branch search row of the Max Gawn entity. -/
def gawnCanonicalRow : SearchRow :=
  { entity := {
      id := 1, domain := "afl", entityType := "player",
      canonicalName := "Max Gawn" },
    matchType := "canonical" }

/-- The alias-branch search row of the Max Gawn entity. -/
def gawnAliasRow : SearchRow :=
  { entity := {
      id := 1, domain := "afl", entityType := "player",
      canonicalName := "Max Gawn" },
    matchType := "alias" }

/-- A per-unit batch step that raises on article 0 and otherwise records the
processed article id in the state. -/
def failingUnitStep (x : Nat) (s : List Nat) : Except String (List Nat) :=
  if x = 0 then Except.error "unit failure" else Except.ok (x :: s)

/-- A live article record: scraped at 100, body `"B1"`, expiring at
`100 + retentionSeconds`. -/
def liveRowFixture : ArticleRow :=
  { id := 1, urlHash := sha256Hex "http://a",
    contentHash := sha256Hex "B1", url := "http://a", title := "T1",
    body := "B1", source := none, publishedAt := none, scrapedAt := 100,
    expiresAt := 100 + retentionSeconds, triageStatus := "pending",
    analysisStatus := "pending", indexedAt := none }

/-- An `articles` table holding the one live record. -/
def liveArticleDb : ArticlesDb :=
  { rows := [liveRowFixture], nextId := 2 }

/-- Two un-indexed articles, scraped at 10 and 20. -/
def unindexedRows : List IndexedArticle :=
  [{ id := 1, title := "t1", body := "b1", scrapedAt := 10, indexedAt := none },
   { id := 2, title := "t2", body := "b2", scrapedAt := 20, indexedAt := none }]

/-- A pending mention item used to exercise the analysis gate. -/
def demoMention : MentionItem :=
  { id := 5, articleId := 9, entityId := some 1, entityName := "Gawn",
    canonicalName := some "Max Gawn", url := "http://a", title := "T",
    source := none }

/-! ## Claim theorems, counterexamples and witnesses -/

/-- Helper: a successful `find?` means the list is non-empty. -/
theorem find?_some_isEmpty {α : Type} (p : α → Bool) {l : List α} {r : α}
    (h : l.find? p = some r) : l.isEmpty = false := by
  cases l with
  | nil => simp at h
  | cons x xs => rfl

/-- C2: `ingest_article` behaviour per branch: a live record with the same
content fingerprint yields the duplicate signal `None` and leaves the table
unchanged; a live record with a different fingerprint is updated in place
(body replaced, both statuses pending, indexed timestamp cleared, scrape and
expiry refreshed); otherwise a fresh row is inserted with expiry equal to
ingest time plus the fixed 7-day retention window. -/
theorem C2_ingest_branch_behaviour (db : ArticlesDb) (now : Nat)
    (url title body : String) (src pub : Option String) :
    (∀ ex, findLive db (sha256Hex url) now = some ex →
      ex.contentHash = sha256Hex body →
      ingestArticle db now url title body src pub = (db, none))
    ∧ (∀ ex, findLive db (sha256Hex url) now = some ex →
      ex.contentHash ≠ sha256Hex body →
      (ingestArticle db now url title body src pub).1.rows
          = db.rows.map (fun a =>
              if a.id = ex.id then contentUpdate now body (sha256Hex body) a else a)
        ∧ (ingestArticle db now url title body src pub).2
          = some (contentUpdate now body (sha256Hex body) ex)
        ∧ (contentUpdate now body (sha256Hex body) ex).body = body
        ∧ (contentUpdate now body (sha256Hex body) ex).triageStatus = "pending"
        ∧ (contentUpdate now body (sha256Hex body) ex).analysisStatus = "pending"
        ∧ (contentUpdate now body (sha256Hex body) ex).indexedAt = none
        ∧ (contentUpdate now body (sha256Hex body) ex).scrapedAt = now
        ∧ (contentUpdate now body (sha256Hex body) ex).expiresAt
          = now + retentionSeconds)
    ∧ (findLive db (sha256Hex url) now = none →
      (ingestArticle db now url title body src pub).1.rows
          = db.rows
            ++ [insertRow db now (sha256Hex url) (sha256Hex body) url title body src pub]
        ∧ (ingestArticle db now url title body src pub).2
          = some (insertRow db now (sha256Hex url) (sha256Hex body) url title body src pub)
        ∧ (insertRow db now (sha256Hex url) (sha256Hex body) url title body src pub).expiresAt
          = now + retentionSeconds) := by
  refine ⟨?_, ?_, ?_⟩
  · intro ex hfind heq
    simp [ingestArticle, hfind, heq]
  · intro ex hfind hne
    simp [ingestArticle, hfind, hne, contentUpdate]
  · intro hfind
    simp [ingestArticle, hfind, insertRow]

/-- C2 witness: the three branches exercised on a concrete table. -/
theorem C2_ingest_branch_behaviour_witness :
    ingestArticle liveArticleDb 200 "http://a" "T2" "B1" none none
      = (liveArticleDb, none)
    ∧ (ingestArticle liveArticleDb 200 "http://a" "T2" "B2" none none).2
      = some (contentUpdate 200 "B2" (sha256Hex "B2") liveRowFixture)
    ∧ (ingestArticle liveArticleDb 200 "http://b" "T" "B" none none).2
      = some (insertRow liveArticleDb 200 (sha256Hex "http://b") (sha256Hex "B")
          "http://b" "T" "B" none none) := by
  refine ⟨(C2_ingest_branch_behaviour liveArticleDb 200 "http://a" "T2" "B1" none none).1
      liveRowFixture (by decide) (by decide),
    ((C2_ingest_branch_behaviour liveArticleDb 200 "http://a" "T2" "B2" none none).2.1
      liveRowFixture (by decide) (by decide)).2.1,
    ((C2_ingest_branch_behaviour liveArticleDb 200 "http://b" "T" "B" none none).2.2
      (by decide)).2.1⟩


/-- C10: the content fingerprint covers only the body.  With a live record
and an unchanged body, any new title still yields the duplicate signal and
an unchanged table; and on a body change the in-place update preserves
`id`, `url_hash`, `url`, `title`, `source` and `published_at` of every row,
and the returned record keeps the stored title. -/
theorem C10_fingerprint_ignores_title (db : ArticlesDb) (now : Nat)
    (url title body : String) (src pub : Option String) :
    (∀ ex, findLive db (sha256Hex url) now = some ex →
      ex.contentHash = sha256Hex body →
      ingestArticle db now url title body src pub = (db, none))
    ∧ (∀ ex, findLive db (sha256Hex url) now = some ex →
      ex.contentHash ≠ sha256Hex body →
      ((ingestArticle db now url title body src pub).1.rows.map
          (fun a => (a.id, a.urlHash, a.url, a.title, a.source, a.publishedAt))
        = db.rows.map
          (fun a => (a.id, a.urlHash, a.url, a.title, a.source, a.publishedAt)))
      ∧ (∀ r, (ingestArticle db now url title body src pub).2 = some r →
          r.title = ex.title ∧ r.url = ex.url ∧ r.id = ex.id)) := by
  constructor
  · intro ex hfind heq
    simp [ingestArticle, hfind, heq]
  · intro ex hfind hne
    constructor
    · simp only [ingestArticle, hfind, hne]
      simp [List.map_map]
      intro a _
      by_cases h : a.id = ex.id <;> simp [h, contentUpdate]
    · intro r hr
      simp [ingestArticle, hfind, hne] at hr
      subst hr
      simp [contentUpdate]

/-- C10 witness: duplicate despite a changed title; update keeps the title. -/
theorem C10_fingerprint_ignores_title_witness :
    ingestArticle liveArticleDb 200 "http://a" "Different title" "B1" none none
      = (liveArticleDb, none)
    ∧ (contentUpdate 200 "B2" (sha256Hex "B2") liveRowFixture).title
      = liveRowFixture.title := by
  refine ⟨(C10_fingerprint_ignores_title liveArticleDb 200 "http://a"
      "Different title" "B1" none none).1 liveRowFixture (by decide) (by decide), ?_⟩
  have h := ((C10_fingerprint_ignores_title liveArticleDb 200 "http://a" "T2" "B2"
      none none).2 liveRowFixture (by decide) (by decide)).2
      (contentUpdate 200 "B2" (sha256Hex "B2") liveRowFixture) (by decide)
  exact h.1


/-- C8 counterexample: in the content-changed branch the source invokes
`index_article` inside the `with get_cursor()` scope, before it commits, so
a raised tagging failure rolls the committed update back: the table still
holds the old body afterwards, while the same call with a succeeding tagger
commits the new body. -/
theorem C8_counterexample :
    (ingestWithTagger liveArticleDb 200 "http://a" "T2" "B2" none none
        (Except.error "tagging failure")).1 = liveArticleDb
    ∧ (ingestWithTagger liveArticleDb 200 "http://a" "T2" "B2" none none
        (Except.ok ())).1.rows.map (fun a => a.body) = ["B2"]
    ∧ (ingestWithTagger liveArticleDb 200 "http://a" "T2" "B2" none none
        (Except.error "tagging failure")).2 = Except.error "tagging failure" := by
  refine ⟨by decide, by decide, rfl⟩

/-- C8 (amended): tagging runs after the committed insert only in the
new-article branch — there a tagging failure leaves the inserted row
committed and propagates; in the content-changed branch tagging runs inside
the transaction scope before it commits, so a tagging failure rolls the
update back (table unchanged) and propagates; with a succeeding tagger both
branches agree with the pure `ingest_article` transition. -/
theorem C8_tagging_commit_boundary (db : ArticlesDb) (now : Nat)
    (url title body : String) (src pub : Option String) (e : String) :
    (findLive db (sha256Hex url) now = none →
      (ingestWithTagger db now url title body src pub (Except.error e)).1
          = (ingestArticle db now url title body src pub).1
        ∧ (ingestWithTagger db now url title body src pub (Except.error e)).2
          = Except.error e)
    ∧ (∀ ex, findLive db (sha256Hex url) now = some ex →
      ex.contentHash ≠ sha256Hex body →
      (ingestWithTagger db now url title body src pub (Except.error e)).1 = db
        ∧ (ingestWithTagger db now url title body src pub (Except.error e)).2
          = Except.error e)
    ∧ (ingestWithTagger db now url title body src pub (Except.ok ())
        = ((ingestArticle db now url title body src pub).1,
            Except.ok (ingestArticle db now url title body src pub).2)) := by
  refine ⟨?_, ?_, ?_⟩
  · intro hfind
    simp [ingestWithTagger, ingestArticle, hfind]
  · intro ex hfind hne
    simp [ingestWithTagger, hfind, hne]
  · cases hfind : findLive db (sha256Hex url) now with
    | none => simp [ingestWithTagger, ingestArticle, hfind]
    | some ex =>
      by_cases heq : ex.contentHash = sha256Hex body <;>
        simp [ingestWithTagger, ingestArticle, hfind, heq]

/-- C8 witness: both branches at concrete inputs. -/
theorem C8_tagging_commit_boundary_witness :
    ((ingestWithTagger liveArticleDb 200 "http://b" "T" "B" none none
        (Except.error "tagging failure")).1
      = (ingestArticle liveArticleDb 200 "http://b" "T" "B" none none).1)
    ∧ (ingestWithTagger liveArticleDb 200 "http://a" "T2" "B9" none none
        (Except.error "tagging failure")).1 = liveArticleDb := by
  exact ⟨((C8_tagging_commit_boundary liveArticleDb 200 "http://b" "T" "B" none none
      "tagging failure").1 (by decide)).1,
    ((C8_tagging_commit_boundary liveArticleDb 200 "http://a" "T2" "B9" none none
      "tagging failure").2.1 liveRowFixture (by decide) (by decide)).1⟩

/-- C3: `_analyze_entity` marks the mention analysis-completed exactly once
on every path, and writes an extraction event exactly when the oracle reply
parsed and its confidence is at least 0.3; the event is keyed by the
fingerprint of (article URL, resolved subject name) and a duplicate
fingerprint leaves the event table unchanged while the mention is still
marked completed. -/
theorem C3_analysis_confidence_gate (db : AnalysisDb) (item : MentionItem)
    (result : OracleResult) :
    ((analyzeEntity db item result).completed = db.completed ++ [item.id])
    ∧ (∀ msg, result = OracleResult.err msg →
        (analyzeEntity db item result).events = db.events)
    ∧ (∀ et c, result = OracleResult.ok et c → c.getD 0 < (3 : ℚ) / 10 →
        (analyzeEntity db item result).events = db.events)
    ∧ (∀ et c, result = OracleResult.ok et c → (3 : ℚ) / 10 ≤ c.getD 0 →
        (db.events.any (fun ev => ev.articleHash
            = eventFingerprint item.url (resolvedSubjectName item)) = false →
          ∃ ev, ev.articleHash = eventFingerprint item.url (resolvedSubjectName item)
            ∧ ev.confidence = c ∧ ev.articleEntityId = item.id
            ∧ (analyzeEntity db item result).events = db.events ++ [ev])
        ∧ (db.events.any (fun ev => ev.articleHash
            = eventFingerprint item.url (resolvedSubjectName item)) = true →
          (analyzeEntity db item result).events = db.events)) := by
  refine ⟨?_, ?_, ?_, ?_⟩
  · cases result with
    | err msg => simp [analyzeEntity, markAnalysisComplete]
    | ok et c =>
      by_cases h : c.getD 0 < (3 : ℚ) / 10 <;>
        simp [analyzeEntity, markAnalysisComplete, h]
  · intro msg hres
    subst hres
    simp [analyzeEntity, markAnalysisComplete]
  · intro et c hres hlow
    subst hres
    simp [analyzeEntity, markAnalysisComplete, hlow]
  · intro et c hres hhigh
    subst hres
    constructor
    · intro habsent
      refine ⟨{
          schemaType := normalizedEventType et,
          articleHash := eventFingerprint item.url (resolvedSubjectName item),
          confidence := c, articleEntityId := item.id }, rfl, rfl, rfl, ?_⟩
      simp [analyzeEntity, markAnalysisComplete, not_lt.mpr hhigh,
        insertEventKeepExisting, habsent]
    · intro hpresent
      simp [analyzeEntity, markAnalysisComplete, not_lt.mpr hhigh,
        insertEventKeepExisting, hpresent]

/-- C3 witness: oracle failure, the 0.25 / 0.9 confidence gate, and the
duplicate-fingerprint no-op, on a concrete mention. -/
theorem C3_analysis_confidence_gate_witness :
    ((analyzeEntity { events := [], completed := [] } demoMention
        (OracleResult.err "transport failure")).events = [])
    ∧ ((analyzeEntity { events := [], completed := [] } demoMention
        (OracleResult.ok (some "injury") (some (1/4)))).events = [])
    ∧ ((analyzeEntity { events := [], completed := [] } demoMention
        (OracleResult.ok (some "injury") (some (9/10)))).completed = [demoMention.id]) := by
  refine ⟨(C3_analysis_confidence_gate _ demoMention _).2.1 "transport failure" rfl,
    (C3_analysis_confidence_gate _ demoMention _).2.2.1 (some "injury") (some (1/4)) rfl
      (by norm_num),
    ?_⟩
  have h := (C3_analysis_confidence_gate { events := [], completed := [] } demoMention
    (OracleResult.ok (some "injury") (some (9/10)))).1
  simpa using h


/-- Helper: the loop counter of `processLoop` counts every processed unit. -/
theorem processLoop_ok_count {α σ ε : Type} (f : α → σ → Except ε σ) :
    ∀ (xs : List α) (s : σ) (n : Nat) (s' : σ) (m : Nat),
      processLoop f xs s n = Except.ok (s', m) → m = n + xs.length := by
  intro xs
  induction xs with
  | nil =>
    intro s n s' m h
    simp [processLoop] at h
    obtain ⟨-, rfl⟩ := h
    simp
  | cons x rest ih =>
    intro s n s' m h
    simp only [processLoop] at h
    cases hx : f x s with
    | ok s1 =>
      rw [hx] at h
      have := ih s1 (n + 1) s' m h
      simp [List.length_cons]; omega
    | error e => rw [hx] at h; cases h

/-- C4 counterexample: the per-unit loops of `run_triage_batch` and
`run_analysis_batch` have no try/except, so one failing unit aborts the
batch with the raised error instead of the processed count, and the
remaining units are not processed; only an all-success batch returns the
count. -/
theorem C4_counterexample :
    runTriageBatchLoop failingUnitStep [0, 1] [] = Except.error "unit failure"
    ∧ runTriageBatchLoop failingUnitStep [1, 2] [] = Except.ok ([2, 1], 2)
    ∧ runAnalysisBatchLoop failingUnitStep [0, 1] [] = Except.error "unit failure" := by
  exact ⟨rfl, rfl, rfl⟩

/-- C4 (amended): a failure raised while processing one unit propagates out
of `run_triage_batch` / `run_analysis_batch` and aborts the remainder of the
batch; the processed count is returned only when every unit succeeded, and
then equals the number of pulled units. -/
theorem C4_batch_abort_on_unit_failure {α σ ε : Type} :
    (∀ (f : α → σ → Except ε σ) (xs : List α) (s s' : σ) (n : Nat),
      runTriageBatchLoop f xs s = Except.ok (s', n) → n = xs.length)
    ∧ (∀ (f : α → σ → Except ε σ) (x : α) (xs : List α) (s : σ) (e : ε),
      f x s = Except.error e →
      runTriageBatchLoop f (x :: xs) s = Except.error e)
    ∧ (∀ (f : α → σ → Except ε σ) (xs : List α) (s s' : σ) (n : Nat),
      runAnalysisBatchLoop f xs s = Except.ok (s', n) → n = xs.length)
    ∧ (∀ (f : α → σ → Except ε σ) (x : α) (xs : List α) (s : σ) (e : ε),
      f x s = Except.error e →
      runAnalysisBatchLoop f (x :: xs) s = Except.error e) := by
  refine ⟨?_, ?_, ?_, ?_⟩
  · intro f xs s s' n h
    simpa using processLoop_ok_count f xs s 0 s' n h
  · intro f x xs s e h
    simp [runTriageBatchLoop, processLoop, h]
  · intro f xs s s' n h
    simpa using processLoop_ok_count f xs s 0 s' n h
  · intro f x xs s e h
    simp [runAnalysisBatchLoop, processLoop, h]

/-- C4 witness: a concrete failing head unit and a concrete all-success
batch. -/
theorem C4_batch_abort_on_unit_failure_witness :
    runTriageBatchLoop failingUnitStep [0, 7] [] = Except.error "unit failure"
    ∧ (2 : Nat) = [4, 7].length
    ∧ runAnalysisBatchLoop failingUnitStep [0, 7] [] = Except.error "unit failure" := by
  exact ⟨C4_batch_abort_on_unit_failure.2.1 failingUnitStep 0 [7] [] "unit failure" rfl,
    C4_batch_abort_on_unit_failure.1 failingUnitStep [4, 7] [] [7, 4] 2 rfl,
    C4_batch_abort_on_unit_failure.2.2.2 failingUnitStep 0 [7] [] "unit failure" rfl⟩


/-- C5 counterexample: the triage context keyword lists are not the same
keyword-phrase groups the Tagger uses.  `KEYWORD_MAP` puts `"ankle"` in the
injury group (and `"deal"` under contract), but `_detect_context`'s injury
list lacks `"ankle"`, so a window mentioning an ankle classifies as
`"general"` while the claim's same-groups classifier says `"injury"`. -/
theorem C5_counterexample :
    detectContext "Smith hurt an ankle today" "Smith" = "general"
    ∧ detectContextClaimC5 "Smith hurt an ankle today" "Smith" = "injury" := by
  exact ⟨by decide, by decide⟩

/-- C5 (amended): the context label is the first of injury, return, trade,
selection, form whose triage keyword list (the fixed lists in
`_detect_context`, overlapping with but not identical to the Tagger's
groups) matches the 200-character window around the first mention,
`"general"` when the name does not occur or no list matches; deep analysis
is flagged iff the label is injury, trade, selection or return; and a
window holding both injury and selection keywords labels injury. -/
theorem C5_context_first_group_wins (text name : String) (idx : Nat) :
    (subFind (lowerStr name).toList (lowerStr text).toList = none →
      detectContext text name = "general")
    ∧ (subFind (lowerStr name).toList (lowerStr text).toList = some idx →
        ((anyKwIn (ctxWindow (lowerStr text).toList idx) injuryCtxKws = true →
            detectContext text name = "injury")
        ∧ (anyKwIn (ctxWindow (lowerStr text).toList idx) injuryCtxKws = false →
            anyKwIn (ctxWindow (lowerStr text).toList idx) returnCtxKws = true →
            detectContext text name = "return")
        ∧ (anyKwIn (ctxWindow (lowerStr text).toList idx) injuryCtxKws = false →
            anyKwIn (ctxWindow (lowerStr text).toList idx) returnCtxKws = false →
            anyKwIn (ctxWindow (lowerStr text).toList idx) tradeCtxKws = true →
            detectContext text name = "trade")
        ∧ (anyKwIn (ctxWindow (lowerStr text).toList idx) injuryCtxKws = false →
            anyKwIn (ctxWindow (lowerStr text).toList idx) returnCtxKws = false →
            anyKwIn (ctxWindow (lowerStr text).toList idx) tradeCtxKws = false →
            anyKwIn (ctxWindow (lowerStr text).toList idx) selectionCtxKws = true →
            detectContext text name = "selection")
        ∧ (anyKwIn (ctxWindow (lowerStr text).toList idx) injuryCtxKws = false →
            anyKwIn (ctxWindow (lowerStr text).toList idx) returnCtxKws = false →
            anyKwIn (ctxWindow (lowerStr text).toList idx) tradeCtxKws = false →
            anyKwIn (ctxWindow (lowerStr text).toList idx) selectionCtxKws = false →
            anyKwIn (ctxWindow (lowerStr text).toList idx) formCtxKws = true →
            detectContext text name = "form")
        ∧ (anyKwIn (ctxWindow (lowerStr text).toList idx) injuryCtxKws = false →
            anyKwIn (ctxWindow (lowerStr text).toList idx) returnCtxKws = false →
            anyKwIn (ctxWindow (lowerStr text).toList idx) tradeCtxKws = false →
            anyKwIn (ctxWindow (lowerStr text).toList idx) selectionCtxKws = false →
            anyKwIn (ctxWindow (lowerStr text).toList idx) formCtxKws = false →
            detectContext text name = "general")))
    ∧ (needsDeepAnalysis (detectContext text name) = true ↔
        detectContext text name ∈ (["injury", "trade", "selection", "return"] : List String))
    ∧ detectContext "Smith suffered a hamstring injury during selection" "Smith"
      = "injury" := by
  refine ⟨?_, ?_, ?_, by decide⟩
  · intro h
    have h' : subFind (lowerStr name).data (lowerStr text).data = none := h
    simp [detectContext, h']
  · intro h
    have h' : subFind (lowerStr name).data (lowerStr text).data = some idx := h
    refine ⟨?_, ?_, ?_, ?_, ?_, ?_⟩ <;> intros <;>
      simp_all [detectContext, h']
  · have hgen : ∀ c : String,
        needsDeepAnalysis c = true ↔
          c ∈ (["injury", "trade", "selection", "return"] : List String) := by
      intro c
      simp [needsDeepAnalysis]
      tauto
    exact hgen _


/-- C5 witness: the injury-before-selection window and an absent mention at
concrete inputs. -/
theorem C5_context_first_group_wins_witness :
    detectContext "Smith suffered a hamstring injury during selection" "Smith"
      = "injury"
    ∧ detectContext "Gawn had a quiet night" "Max Gawn" = "general" := by
  exact ⟨((C5_context_first_group_wins
        "Smith suffered a hamstring injury during selection" "Smith" 0).2.1
      (by decide)).1 (by decide),
    (C5_context_first_group_wins "Gawn had a quiet night" "Max Gawn" 0).1 (by decide)⟩


/-- Helper: membership through `insertDescBy`. -/
theorem mem_insertDescBy {α : Type} (key : α → Nat) (x : α) :
    ∀ (l : List α) (z : α), z ∈ insertDescBy key x l ↔ z = x ∨ z ∈ l := by
  intro l
  induction l with
  | nil => intro z; simp [insertDescBy]
  | cons y ys ih =>
    intro z
    simp only [insertDescBy]
    by_cases h : key y ≤ key x
    · rw [if_pos h]
      simp [List.mem_cons]
    · rw [if_neg h]
      simp [List.mem_cons, ih]
      tauto

/-- Helper: `insertDescBy` preserves descending sortedness. -/
theorem sorted_insertDescBy {α : Type} (key : α → Nat) (x : α) :
    ∀ (l : List α), List.Sorted (fun a b => key b ≤ key a) l →
      List.Sorted (fun a b => key b ≤ key a) (insertDescBy key x l) := by
  intro l
  induction l with
  | nil => intro _; simp [insertDescBy]
  | cons y ys ih =>
    intro hs
    rw [List.sorted_cons] at hs
    simp only [insertDescBy]
    by_cases h : key y ≤ key x
    · rw [if_pos h]
      rw [List.sorted_cons]
      constructor
      · intro b hb
        rcases List.mem_cons.mp hb with rfl | hb
        · exact h
        · exact le_trans (hs.1 b hb) h
      · rw [List.sorted_cons]
        exact hs
    · rw [if_neg h]
      rw [List.sorted_cons]
      constructor
      · intro b hb
        rcases (mem_insertDescBy key x ys b).mp hb with rfl | hb
        · exact le_of_not_le h
        · exact hs.1 b hb
      · exact ih hs.2

/-- Helper: `sortDescBy` sorts descending. -/
theorem sorted_sortDescBy {α : Type} (key : α → Nat) :
    ∀ (l : List α), List.Sorted (fun a b => key b ≤ key a) (sortDescBy key l) := by
  intro l
  induction l with
  | nil => simp [sortDescBy]
  | cons x xs ih => exact sorted_insertDescBy key x _ ih

/-- Helper: membership through `sortDescBy`. -/
theorem mem_sortDescBy {α : Type} (key : α → Nat) :
    ∀ (l : List α) (z : α), z ∈ sortDescBy key l → z ∈ l := by
  intro l
  induction l with
  | nil => intro z h; exact absurd h (by simp [sortDescBy])
  | cons x xs ih =>
    intro z h
    simp only [sortDescBy] at h
    rcases (mem_insertDescBy key x _ z).mp h with rfl | h
    · exact List.mem_cons_self _ _
    · exact List.mem_cons_of_mem _ (ih z h)

/-- C9 counterexample: the reindex pull orders by `scraped_at DESC`, so on
two un-indexed articles scraped at 10 and 20 the pulled batch is newest
first, not in ascending scrape order as the claim states. -/
theorem C9_counterexample :
    (pullUnindexed unindexedRows 100).map (fun a => a.scrapedAt) = [20, 10]
    ∧ (pullUnindexed unindexedRows 100).map (fun a => a.scrapedAt) ≠ [10, 20] := by
  exact ⟨by decide, by decide⟩

/-- C9 (amended): `reindex_all` repeatedly pulls un-indexed articles
newest-scraped-first (descending scrape timestamp), re-runs tagging on each
pulled article, and its loop exits exactly when a pull returns no un-indexed
article. -/
theorem C9_reindex_newest_first :
    (∀ (rows : List IndexedArticle) (n : Nat),
      List.Sorted (fun a b : IndexedArticle => b.scrapedAt ≤ a.scrapedAt)
        (pullUnindexed rows n))
    ∧ (∀ (rows : List IndexedArticle) (n : Nat) (a : IndexedArticle),
      a ∈ pullUnindexed rows n → a.indexedAt = none ∧ a ∈ rows)
    ∧ (∀ (pats : List PatternEntry) (dims : List (String × Nat))
        (now bs fuel : Nat) (st : ReindexState),
      pullUnindexed st.articles bs = [] →
      reindexAll pats dims now bs (fuel + 1) st = st)
    ∧ (∀ (pats : List PatternEntry) (dims : List (String × Nat))
        (now bs fuel : Nat) (st : ReindexState),
      pullUnindexed st.articles bs ≠ [] →
      reindexAll pats dims now bs (fuel + 1) st
        = reindexAll pats dims now bs fuel
            ((pullUnindexed st.articles bs).foldl (reindexOne pats dims now) st))
    ∧ (∀ (pats : List PatternEntry) (dims : List (String × Nat)) (now : Nat)
        (st : ReindexState) (a : IndexedArticle),
      (reindexOne pats dims now st a).tagStore
          = indexArticleTags pats dims st.tagStore a.id a.title a.body
        ∧ (reindexOne pats dims now st a).processed = st.processed + 1) := by
  refine ⟨?_, ?_, ?_, ?_, ?_⟩
  · intro rows n
    exact List.Pairwise.sublist (List.take_sublist n _)
      (sorted_sortDescBy (fun a : IndexedArticle => a.scrapedAt) _)
  · intro rows n a ha
    have hmem := List.mem_of_mem_take ha
    have hmem' := mem_sortDescBy (fun a => a.scrapedAt) _ a hmem
    have := List.mem_filter.mp hmem'
    refine ⟨by simpa using this.2, this.1⟩
  · intro pats dims now bs fuel st h
    simp [reindexAll, h]
  · intro pats dims now bs fuel st h
    simp [reindexAll, h]
  · intro pats dims now st a
    exact ⟨rfl, rfl⟩

/-- C9 witness: the loop clauses at concrete states. -/
theorem C9_reindex_newest_first_witness :
    ({ id := 2, title := "t2", body := "b2", scrapedAt := 20,
        indexedAt := none } : IndexedArticle).indexedAt = none
    ∧ reindexAll [] [] 0 10 1
        { articles := [], tagStore := fun _ => none, processed := 0 }
      = { articles := [], tagStore := fun _ => none, processed := 0 } := by
  refine ⟨?_, ?_⟩
  · exact ((C9_reindex_newest_first).2.1 unindexedRows 100
      { id := 2, title := "t2", body := "b2", scrapedAt := 20, indexedAt := none }
      (by decide)).1
  · exact (C9_reindex_newest_first).2.2.1 [] [] 0 10 0
      { articles := [], tagStore := fun _ => none, processed := 0 } rfl


/-- Helper: closed forms of the snapshot-loop accumulator. -/
theorem snapFold_characterisation (snaps : List SnapshotRow) :
    ∀ acc : FlattenAcc,
      ((snaps.foldl snapStep acc).sentimentSum
          = acc.sentimentSum
            + ((recordedSnaps snaps).map (fun s => sentimentVal s.sentiment)).sum)
      ∧ ((snaps.foldl snapStep acc).dimCount
          = acc.dimCount + (recordedSnaps snaps).length)
      ∧ ((snaps.foldl snapStep acc).signalSum
          = acc.signalSum
            + ((knownSnaps snaps).map (fun s => signalVal s.signalStrength)).sum)
      ∧ ((snaps.foldl snapStep acc).totalArticles
          = acc.totalArticles
            + ((knownSnaps snaps).map (fun s => s.articleCount.getD 0)).sum)
      ∧ (∀ stem : String, (snaps.foldl snapStep acc).dims stem
          = lastBy snapTriple (acc.dims stem)
              (snaps.filter (fun s => dimOf s = some stem))) := by
  induction snaps with
  | nil =>
    intro acc
    simp [recordedSnaps, knownSnaps, lastBy]
  | cons s rest ih =>
    intro acc
    simp only [List.foldl_cons]
    cases hdim : dimOf s with
    | none =>
      have hstep : snapStep acc s = acc := by simp [snapStep, hdim]
      rw [hstep]
      have h1 : recordedSnaps (s :: rest) = recordedSnaps rest := by
        simp [recordedSnaps, List.filter_cons, hdim]
      have h2 : knownSnaps (s :: rest) = knownSnaps rest := by
        simp [knownSnaps, List.filter_cons, hdim]
      have h3 : ∀ stem : String,
          (s :: rest).filter (fun q => dimOf q = some stem)
            = rest.filter (fun q => dimOf q = some stem) := by
        intro stem
        simp [List.filter_cons, hdim]
      rw [h1, h2]
      refine ⟨(ih acc).1, (ih acc).2.1, (ih acc).2.2.1, (ih acc).2.2.2.1, ?_⟩
      intro stem
      rw [h3 stem]
      exact (ih acc).2.2.2.2 stem
    | some stem' =>
      have hstep : snapStep acc s = {
          dims := fun k => if k = stem' then snapTriple s else acc.dims k,
          totalArticles := acc.totalArticles + s.articleCount.getD 0,
          sentimentSum := acc.sentimentSum
            + (if sentRecorded s then sentimentVal s.sentiment else 0),
          signalSum := acc.signalSum + signalVal s.signalStrength,
          dimCount := acc.dimCount + (if sentRecorded s then 1 else 0) } := by
        simp [snapStep, hdim]
      rw [hstep]
      have hknown : knownSnaps (s :: rest) = s :: knownSnaps rest := by
        simp [knownSnaps, List.filter_cons, hdim]
      obtain ⟨i1, i2, i3, i4, i5⟩ := ih {
        dims := fun k => if k = stem' then snapTriple s else acc.dims k,
        totalArticles := acc.totalArticles + s.articleCount.getD 0,
        sentimentSum := acc.sentimentSum
          + (if sentRecorded s then sentimentVal s.sentiment else 0),
        signalSum := acc.signalSum + signalVal s.signalStrength,
        dimCount := acc.dimCount + (if sentRecorded s then 1 else 0) }
      refine ⟨?_, ?_, ?_, ?_, ?_⟩
      · rw [i1]
        by_cases hrec : sentRecorded s
        · have : recordedSnaps (s :: rest) = s :: recordedSnaps rest := by
            simp [recordedSnaps, List.filter_cons, hdim, hrec]
          rw [this]
          simp [hrec]
          ring
        · have : recordedSnaps (s :: rest) = recordedSnaps rest := by
            simp [recordedSnaps, List.filter_cons, hdim, hrec]
          rw [this]
          simp [hrec]
      · rw [i2]
        by_cases hrec : sentRecorded s
        · have : recordedSnaps (s :: rest) = s :: recordedSnaps rest := by
            simp [recordedSnaps, List.filter_cons, hdim, hrec]
          rw [this]
          simp [hrec]
          omega
        · have : recordedSnaps (s :: rest) = recordedSnaps rest := by
            simp [recordedSnaps, List.filter_cons, hdim, hrec]
          rw [this]
          simp [hrec]
      · rw [i3, hknown]
        simp
        ring
      · rw [i4, hknown]
        simp
        omega
      · intro stem
        rw [i5 stem]
        by_cases hstem : stem = stem'
        · subst hstem
          have : (s :: rest).filter (fun q => dimOf q = some stem)
              = s :: rest.filter (fun q => dimOf q = some stem) := by
            simp [List.filter_cons, hdim]
          rw [this]
          simp [lastBy]
        · have : (s :: rest).filter (fun q => dimOf q = some stem)
              = rest.filter (fun q => dimOf q = some stem) := by
            simp [List.filter_cons, hdim, Ne.symm hstem]
          rw [this]
          simp [hstem]


/-- C7: the flattener's numeric projection.  The sentiment and signal class
maps take the specified values; each dimension's feature triple is the one
written by its (last) snapshot with that code — `mentioned` is
`article_count > 0` and the numeric fields are the mapped classes — with
`(false, unset, unset)` as the default; the overall sentiment is the mean of
the mapped sentiments over dimensions with a recorded sentiment (0.5 when
none is recorded); and the overall signal divides the sum of the mapped
signal values by the fixed total of 8 known dimensions, not by the number of
dimensions present. -/
theorem C7_feature_flattening (snaps : List SnapshotRow) (verdict : VerdictRow) :
    (sentimentVal (some "positive") = 3/4 ∧ sentimentVal (some "neutral") = 1/2
      ∧ sentimentVal (some "negative") = 1/4 ∧ sentimentVal (some "mixed") = 1/2
      ∧ sentimentVal none = 1/2)
    ∧ (signalVal (some "strong") = 1 ∧ signalVal (some "moderate") = 33/50
      ∧ signalVal (some "weak") = 33/100 ∧ signalVal (some "none") = 0
      ∧ signalVal none = 0)
    ∧ (∀ s : SnapshotRow,
        (snapTriple s).mentioned = decide (0 < s.articleCount.getD 0)
        ∧ (snapTriple s).sentiment = some (sentimentVal s.sentiment)
        ∧ (snapTriple s).signal = some (signalVal s.signalStrength))
    ∧ (∀ stem : String, (generateEntityFeatures snaps verdict).dims stem
        = lastBy snapTriple { mentioned := false, sentiment := none, signal := none }
            (snaps.filter (fun s => dimOf s = some stem)))
    ∧ ((generateEntityFeatures snaps verdict).overallSentiment
        = if (recordedSnaps snaps).length = 0 then 1/2
          else ((recordedSnaps snaps).map (fun s => sentimentVal s.sentiment)).sum
            / ((recordedSnaps snaps).length : ℚ))
    ∧ ((generateEntityFeatures snaps verdict).overallSignalStrength
        = ((knownSnaps snaps).map (fun s => signalVal s.signalStrength)).sum / 8)
    ∧ dimensionCodes.length = 8 := by
  obtain ⟨h1, h2, h3, h4, h5⟩ := snapFold_characterisation snaps {
    dims := fun _ => { mentioned := false, sentiment := none, signal := none },
    totalArticles := 0, sentimentSum := 0, signalSum := 0, dimCount := 0 }
  refine ⟨⟨rfl, rfl, rfl, rfl, rfl⟩,
    ⟨rfl, rfl, rfl, rfl, rfl⟩,
    fun s => ⟨rfl, rfl, rfl⟩, ?_, ?_, ?_, by decide⟩
  · intro stem
    simpa [generateEntityFeatures] using h5 stem
  · simp only [generateEntityFeatures]
    rw [h1, h2]
    simp only [zero_add, Nat.zero_add]
    by_cases hlen : (recordedSnaps snaps).length = 0
    · simp [hlen]
    · simp [hlen, Nat.pos_of_ne_zero hlen]
  · simp only [generateEntityFeatures]
    rw [h3]
    norm_num [dimensionCodes, dimensionCodePairs]


/-- Helper: `_save_tags` acts independently on each `(article, type, value)`
key: the stored row under a key is the fold of the upserts of the tags
carrying that key. -/
theorem saveTags_apply (articleId : Nat) :
    ∀ (tags : List TagData) (store : TagStore) (k : Nat × String × String),
      saveTags store articleId tags k
        = List.foldl upsertRow (store k)
            (tags.filter (fun t => k = (articleId, t.tagType, t.tagValue))) := by
  intro tags
  induction tags with
  | nil => intro store k; simp [saveTags]
  | cons t ts ih =>
    intro store k
    simp only [saveTags, List.foldl_cons] at *
    rw [ih]
    by_cases h : k = (articleId, t.tagType, t.tagValue)
    · rw [List.filter_cons_of_pos (by simpa using h)]
      simp [upsertTag, h]
    · rw [List.filter_cons_of_neg (by simpa using h)]
      simp [upsertTag, h]

/-- Helper: one update-branch upsert, in closed form. -/
theorem upsertRow_some (r : TagRow) (t : TagData) :
    upsertRow (some r) t
      = some { r with
          matchCount := t.matchCount, isHeadline := t.isHeadline,
          dimensionId := match t.dimensionId with
            | some x => some x
            | none => r.dimensionId } := rfl

/-- Helper: closed form of an upsert fold from an existing row: the fields
the update overwrites come from the last tag, the `COALESCE` chain from the
last tag carrying a dimension, and `entity_id` / `match_text` stay. -/
theorem upsertRow_fold_some :
    ∀ (ts : List TagData) (r : TagRow),
      List.foldl upsertRow (some r) ts
        = some {
            entityId := r.entityId,
            dimensionId := dimChain r.dimensionId ts,
            matchText := r.matchText,
            matchCount := lastBy (fun t => t.matchCount) r.matchCount ts,
            isHeadline := lastBy (fun t => t.isHeadline) r.isHeadline ts } := by
  intro ts
  induction ts with
  | nil => intro r; simp [dimChain, lastBy]
  | cons t ts ih =>
    intro r
    simp only [List.foldl_cons, upsertRow]
    rw [ih]
    rfl

/-- Helper: the `COALESCE` chain is its last recorded choice, falling back
to the initial value. -/
theorem dimChain_last :
    ∀ (ts : List TagData) (d : Option Nat),
      dimChain d ts = match lastDim ts with
        | some x => some x
        | none => d := by
  intro ts
  induction ts with
  | nil => intro d; simp [dimChain, lastDim]
  | cons t ts ih =>
    intro d
    have h1 : dimChain d (t :: ts) = dimChain (match t.dimensionId with
        | some x => some x
        | none => d) ts := rfl
    have h2 : lastDim (t :: ts) = dimChain (match t.dimensionId with
        | some x => some x
        | none => none) ts := rfl
    rw [h1, h2, ih, ih]
    cases hld : lastDim ts with
    | some x => rfl
    | none => cases t.dimensionId <;> rfl

/-- Helper: rerunning an upsert fold over the same tag sequence is the
identity on its own result. -/
theorem upsertRow_fold_idem :
    ∀ (ts : List TagData) (v : Option TagRow),
      List.foldl upsertRow (List.foldl upsertRow v ts) ts
        = List.foldl upsertRow v ts := by
  intro ts v
  cases ts with
  | nil => rfl
  | cons t rest =>
    have hv : ∃ r0 : TagRow, upsertRow v t = some r0
        ∧ r0.matchCount = t.matchCount ∧ r0.isHeadline = t.isHeadline
        ∧ (∀ x, t.dimensionId = some x → r0.dimensionId = some x) := by
      cases v with
      | none =>
        refine ⟨_, rfl, rfl, rfl, ?_⟩
        intro x hx
        simp [upsertRow, hx]
      | some r =>
        refine ⟨_, rfl, rfl, rfl, ?_⟩
        intro x hx
        simp [upsertRow, hx]
    obtain ⟨r0, hr0, hc, hh, hd⟩ := hv
    have hdim : dimChain (match t.dimensionId with
        | some x => some x
        | none => dimChain r0.dimensionId rest) rest
        = dimChain r0.dimensionId rest := by
      simp only [dimChain_last]
      cases hld : lastDim rest with
      | some x => rfl
      | none =>
        cases ht : t.dimensionId with
        | none => rfl
        | some x => exact (hd x ht).symm
    simp only [List.foldl_cons, hr0]
    rw [upsertRow_fold_some, upsertRow_some, upsertRow_fold_some]
    simp [hc, hh, hdim]

/-- C6: running the Tagger twice on the same `(article_id, title, body)`
with the same pattern and dimension caches leaves the tag table exactly as
after the first run: the second pass upserts the same keys with the same
counts and headline flags, creating no duplicate row and changing no
value. -/
theorem C6_tagging_idempotent (patterns : List PatternEntry)
    (dims : List (String × Nat)) (store : TagStore) (articleId : Nat)
    (title body : String) :
    indexArticleTags patterns dims
        (indexArticleTags patterns dims store articleId title body)
        articleId title body
      = indexArticleTags patterns dims store articleId title body := by
  funext k
  simp only [indexArticleTags]
  rw [saveTags_apply, saveTags_apply]
  exact upsertRow_fold_idem _ _


/-- Helper: the running best score of the fuzzy fold never decreases. -/
theorem bestFold_fst_mono {α : Type} (f : α → ℚ) (c : ℚ) (l : List α) :
    ∀ acc : ℚ × Option α,
      acc.1 ≤ (l.foldl (fun acc r =>
        if acc.1 < f r ∧ c ≤ f r then (f r, some r) else acc) acc).1 := by
  induction l with
  | nil => intro acc; exact le_refl _
  | cons x xs ih =>
    intro acc
    simp only [List.foldl_cons]
    by_cases h : acc.1 < f x ∧ c ≤ f x
    · rw [if_pos h]
      exact le_trans (le_of_lt h.1) (ih (f x, some x))
    · rw [if_neg h]
      exact ih acc

/-- Helper: when every candidate scores below the threshold, the fuzzy fold
keeps its accumulator. -/
theorem bestFold_below {α : Type} (f : α → ℚ) (c : ℚ) (l : List α) :
    ∀ acc : ℚ × Option α, (∀ r ∈ l, f r < c) →
      l.foldl (fun acc r =>
        if acc.1 < f r ∧ c ≤ f r then (f r, some r) else acc) acc = acc := by
  induction l with
  | nil => intro acc _; rfl
  | cons x xs ih =>
    intro acc hall
    simp only [List.foldl_cons]
    rw [if_neg]
    · exact ih acc (fun r hr => hall r (List.mem_cons_of_mem _ hr))
    · intro h
      exact absurd h.2 (not_le.mpr (hall x (List.mem_cons_self _ _)))

/-- Helper: the fuzzy fold either keeps its accumulator or lands on a
candidate that met the threshold. -/
theorem bestFold_result {α : Type} (f : α → ℚ) (c : ℚ) (l : List α) :
    ∀ acc : ℚ × Option α,
      (l.foldl (fun acc r =>
        if acc.1 < f r ∧ c ≤ f r then (f r, some r) else acc) acc = acc)
      ∨ ∃ r ∈ l, l.foldl (fun acc r =>
          if acc.1 < f r ∧ c ≤ f r then (f r, some r) else acc) acc = (f r, some r)
        ∧ c ≤ f r := by
  induction l with
  | nil => intro acc; left; rfl
  | cons x xs ih =>
    intro acc
    simp only [List.foldl_cons]
    by_cases h : acc.1 < f x ∧ c ≤ f x
    · rw [if_pos h]
      rcases ih (f x, some x) with heq | ⟨r, hr, heq, hcr⟩
      · right; exact ⟨x, List.mem_cons_self _ _, heq, h.2⟩
      · right; exact ⟨r, List.mem_cons_of_mem _ hr, heq, hcr⟩
    · rw [if_neg h]
      rcases ih acc with heq | ⟨r, hr, heq, hcr⟩
      · left; exact heq
      · right; exact ⟨r, List.mem_cons_of_mem _ hr, heq, hcr⟩

/-- Helper: every candidate either misses the threshold or is bounded by the
final best score of the fuzzy fold. -/
theorem bestFold_ub {α : Type} (f : α → ℚ) (c : ℚ) (l : List α) :
    ∀ (acc : ℚ × Option α) (q : α), q ∈ l →
      f q < c ∨ f q ≤ (l.foldl (fun acc r =>
        if acc.1 < f r ∧ c ≤ f r then (f r, some r) else acc) acc).1 := by
  induction l with
  | nil => intro acc q hq; exact absurd hq (List.not_mem_nil q)
  | cons x xs ih =>
    intro acc q hq
    simp only [List.foldl_cons]
    rcases List.mem_cons.mp hq with rfl | hq
    · by_cases h : acc.1 < f q ∧ c ≤ f q
      · rw [if_pos h]
        right
        exact bestFold_fst_mono f c xs (f q, some q)
      · rw [if_neg h]
        rcases not_and_or.mp h with h1 | h2
        · right
          exact le_trans (not_lt.mp h1) (bestFold_fst_mono f c xs acc)
        · left
          exact not_le.mp h2
    · by_cases h : acc.1 < f x ∧ c ≤ f x
      · rw [if_pos h]
        exact ih (f x, some x) q hq
      · rw [if_neg h]
        exact ih acc q hq


/-- Helper: the fuzzy step, with its `let` unfolded, as the generic fold
step shape. -/
theorem bestFuzzyStep_eq (name : String) :
    bestFuzzyStep name = fun (acc : ℚ × Option SearchRow) (r : SearchRow) =>
      if acc.1 < levRatio (lowerStr name) (lowerStr r.entity.canonicalName)
          ∧ (4 : ℚ) / 5 ≤ levRatio (lowerStr name) (lowerStr r.entity.canonicalName)
        then (levRatio (lowerStr name) (lowerStr r.entity.canonicalName), some r)
        else acc := rfl

/-- C1 counterexample: a whitespace-only name is truthy in Python, so
`resolve_entity(" ")` queries with the stripped (empty) pattern — which
`LIKE '%%'`-matches the whole catalog — and resolves via the alias branch;
and `"awn"` resolves via the alias branch on substring containment alone
(no alias equals `"awn"`, and its best fuzzy ratio 6/11 is below 0.8), where
the claim requires not-found in both cases. -/
theorem C1_counterexample :
    (resolveEntity gawnCatalog " " (some "afl")).isSome = true
    ∧ (resolveEntity gawnCatalog "awn" (some "afl")).isSome = true := by
  exact ⟨by decide, by decide⟩

/-- C1 (amended): only the empty string short-circuits without querying; any
other name (whitespace-only included) queries with the stripped name; among
the candidates, the first exact case-insensitive canonical match wins, else
the first candidate produced by the alias branch of the search (alias
contains the input as a case-insensitive substring — exact alias equality is
not required), else the highest-scoring candidate by Levenshtein ratio
provided it reaches 0.8, and not-found otherwise or when there is no
candidate. -/
theorem C1_resolution_priority (cat : Catalog) (name : String)
    (domain : Option String) :
    (resolveEntity cat "" domain = none)
    ∧ (name ≠ "" → searchEntities cat (stripStr name) domain 5 = [] →
        resolveEntity cat name domain = none)
    ∧ (∀ r, name ≠ "" →
        (searchEntities cat (stripStr name) domain 5).find?
            (fun q => lowerStr q.entity.canonicalName = lowerStr name) = some r →
        resolveEntity cat name domain = some r)
    ∧ (∀ r, name ≠ "" →
        (searchEntities cat (stripStr name) domain 5).find?
            (fun q => lowerStr q.entity.canonicalName = lowerStr name) = none →
        (searchEntities cat (stripStr name) domain 5).find?
            (fun q => q.matchType = "alias") = some r →
        resolveEntity cat name domain = some r)
    ∧ (name ≠ "" →
        (searchEntities cat (stripStr name) domain 5).find?
            (fun q => lowerStr q.entity.canonicalName = lowerStr name) = none →
        (searchEntities cat (stripStr name) domain 5).find?
            (fun q => q.matchType = "alias") = none →
        (∀ q ∈ searchEntities cat (stripStr name) domain 5,
          levRatio (lowerStr name) (lowerStr q.entity.canonicalName) < (4 : ℚ) / 5) →
        resolveEntity cat name domain = none)
    ∧ (∀ r, name ≠ "" →
        (searchEntities cat (stripStr name) domain 5).find?
            (fun q => lowerStr q.entity.canonicalName = lowerStr name) = none →
        (searchEntities cat (stripStr name) domain 5).find?
            (fun q => q.matchType = "alias") = none →
        resolveEntity cat name domain = some r →
        r ∈ searchEntities cat (stripStr name) domain 5
          ∧ (4 : ℚ) / 5 ≤ levRatio (lowerStr name) (lowerStr r.entity.canonicalName)
          ∧ ∀ q ∈ searchEntities cat (stripStr name) domain 5,
              levRatio (lowerStr name) (lowerStr q.entity.canonicalName)
                ≤ levRatio (lowerStr name) (lowerStr r.entity.canonicalName)) := by
  refine ⟨by simp [resolveEntity], ?_, ?_, ?_, ?_, ?_⟩
  · intro hname hempty
    simp [resolveEntity, hname, hempty]
  · intro r hname hfind
    have hne : (searchEntities cat (stripStr name) domain 5).isEmpty = false :=
      find?_some_isEmpty _ hfind
    simp [resolveEntity, hname, hne, hfind]
  · intro r hname hex halias
    have hne : (searchEntities cat (stripStr name) domain 5).isEmpty = false :=
      find?_some_isEmpty _ halias
    simp [resolveEntity, hname, hne, hex, halias]
  · intro hname hex halias hall
    cases hempty : (searchEntities cat (stripStr name) domain 5).isEmpty with
    | true =>
      simp [resolveEntity, hname, hempty]
    | false =>
      have hfold := bestFold_below
        (fun q : SearchRow => levRatio (lowerStr name) (lowerStr q.entity.canonicalName))
        ((4 : ℚ) / 5) (searchEntities cat (stripStr name) domain 5)
        ((0 : ℚ), (none : Option SearchRow))
      have hbf : bestFuzzy name (searchEntities cat (stripStr name) domain 5)
          = ((0 : ℚ), (none : Option SearchRow)) := by
        simp only [bestFuzzy, bestFuzzyStep_eq]
        exact hfold hall
      simp only [resolveEntity, if_neg hname, hempty, Bool.false_eq_true,
        if_false, hex, halias, hbf]
  · intro r hname hex halias hres
    cases hempty : (searchEntities cat (stripStr name) domain 5).isEmpty with
    | true =>
      rw [show resolveEntity cat name domain = none by
        simp [resolveEntity, hname, hempty]] at hres
      cases hres
    | false =>
      simp only [resolveEntity, if_neg hname, hempty, Bool.false_eq_true,
        if_false, hex, halias, bestFuzzy, bestFuzzyStep_eq] at hres
      have hr0 := bestFold_result
        (fun q : SearchRow => levRatio (lowerStr name) (lowerStr q.entity.canonicalName))
        ((4 : ℚ) / 5) (searchEntities cat (stripStr name) domain 5)
        ((0 : ℚ), (none : Option SearchRow))
      have hub := bestFold_ub
        (fun q : SearchRow => levRatio (lowerStr name) (lowerStr q.entity.canonicalName))
        ((4 : ℚ) / 5) (searchEntities cat (stripStr name) domain 5)
        ((0 : ℚ), (none : Option SearchRow))
      rcases hr0 with heq | ⟨w, hw, heq, hcw⟩
      · rw [heq] at hres
        cases hres
      · rw [heq] at hres
        cases hres
        refine ⟨hw, hcw, ?_⟩
        intro q hq
        rcases hub q hq with hlt | hle
        · exact le_trans (le_of_lt hlt) hcw
        · rw [heq] at hle
          exact hle


/-- C1 witness: the empty-input, no-candidate, exact, alias and fuzzy
clauses at concrete catalogs. -/
theorem C1_resolution_priority_witness :
    resolveEntity gawnCatalog "" (some "afl") = none
    ∧ resolveEntity gawnCatalog "Random Nobody" (some "afl") = none
    ∧ resolveEntity gawnCatalog "max gawn" (some "afl") = some gawnCanonicalRow
    ∧ resolveEntity gawnCatalog "awn" (some "afl") = some gawnAliasRow
    ∧ resolveEntity gawnCatalogNoAlias "gawn" (some "afl") = none := by
  have hratio : levRatio (lowerStr "gawn") (lowerStr "Max Gawn") < (4 : ℚ) / 5 := by
    have hl : lcsLen (lowerStr "gawn").toList (lowerStr "Max Gawn").toList = 4 := by
      decide
    have hlen1 : (lowerStr "gawn").length = 4 := by decide
    have hlen2 : (lowerStr "Max Gawn").length = 8 := by decide
    simp only [levRatio, hl, hlen1, hlen2]
    norm_num
  refine ⟨(C1_resolution_priority gawnCatalog "" (some "afl")).1,
    (C1_resolution_priority gawnCatalog "Random Nobody" (some "afl")).2.1
      (by decide) (by decide),
    (C1_resolution_priority gawnCatalog "max gawn" (some "afl")).2.2.1
      gawnCanonicalRow (by decide) (by decide),
    (C1_resolution_priority gawnCatalog "awn" (some "afl")).2.2.2.1
      gawnAliasRow (by decide) (by decide) (by decide),
    (C1_resolution_priority gawnCatalogNoAlias "gawn" (some "afl")).2.2.2.2.1
      (by decide) (by decide) (by decide) ?_⟩
  intro q hq
  have hsearch : searchEntities gawnCatalogNoAlias (stripStr "gawn") (some "afl") 5
      = [gawnCanonicalRow] := by decide
  rw [hsearch] at hq
  rcases List.mem_singleton.mp hq with rfl
  exact hratio

end NewsService
